import Mathlib

/-!
# Verification of the Stellarium Meteor Showers simulation core

A shallow embedding of `plugins/MeteorShowers/src/MeteorShower.cpp`:
construction/validation of a shower record from a parsed catalog map,
the activity resolver (`hasConfirmedShower` / `hasGenericShower`), the
Gaussian rate model (`calculateZHR`) and the per-tick `update` driver.

Modelling conventions:
* Qt's `QDate` is `Option Date`: `none` is a null/invalid `QDate`, and a
  valid date is a year/month/day triple in the proleptic Gregorian
  calendar (no year 0), exactly as in Qt 5's `qdatetime.cpp`.  Date
  comparison goes through the Julian-day number, with the null date
  mapped to Qt's `nullJd` sentinel.  `Int` division `/` in this file is
  floor division for the positive divisors used, matching Qt's
  `floordiv` helper.
* C++ `double`/`float` inputs and state are modelled as `ℚ` (every
  floating-point value is rational); only the Gaussian in
  `calculateZHR` needs `ℝ` (for `exp`) and is therefore noncomputable.
  Floating-point rounding error is not modelled.
* Operations that would be out-of-bounds container accesses in the C++
  (`QList::at` past the end) are modelled by returning `none` from an
  `Option`-valued function.
* The process-wide random generator is modelled as an oracle
  `rands : Nat → ℚ` supplied with each tick (the values of
  `qrand()/RAND_MAX`, drawn sequentially), and the opaque behaviour of
  `MeteorObj` (its `update` survival and post-construction `isAlive`
  viability check) as boolean oracles.
-/

/-- Gregorian leap-year test, as in Qt's `isLeapYear`, including its
adjustment for the missing year 0 (`if (y < 1) ++y`); the `%` tests
are only compared with 0, for which C and Euclidean remainders agree. -/
def isLeap (y : Int) : Bool :=
  let y := if y < 1 then y + 1 else y
  (y % 4 == 0 && y % 100 != 0) || (y % 400 == 0)

/-- Number of days in a month of a given year (proleptic Gregorian). -/
def daysInMonth (y m : Int) : Int :=
  if m = 2 then (if isLeap y then 29 else 28)
  else if m = 4 ∨ m = 6 ∨ m = 9 ∨ m = 11 then 30
  else 31

/-- Qt `QDate` validity of a year/month/day triple: no year 0, month in
1..12, day in range for the month. -/
def QtValidYMD (y m d : Int) : Prop :=
  y ≠ 0 ∧ 1 ≤ m ∧ m ≤ 12 ∧ 1 ≤ d ∧ d ≤ daysInMonth y m

instance (y m d : Int) : Decidable (QtValidYMD y m d) := by
  unfold QtValidYMD; infer_instance

/-- A valid calendar date (the payload of a non-null `QDate`). -/
structure Date where
  y : Int
  m : Int
  d : Int
deriving DecidableEq, Repr

/-- Qt 5 `julianDayFromDate` (qdatetime.cpp): proleptic Gregorian date
to Julian day number, with the year adjusted for the missing year 0.
All divisors are positive, so Lean's `/` on `Int` is Qt's `floordiv`. -/
def julianDayFromDate (year month day : Int) : Int :=
  let year := if year < 0 then year + 1 else year
  let a := (14 - month) / 12
  let y := year + 4800 - a
  let m := month + 12 * a - 3
  day + (153 * m + 2) / 5 + 365 * y + y / 4 - y / 100 + y / 400 - 32045

/-- `QDate::toJulianDay` on a valid date. -/
def Date.toJD (dt : Date) : Int := julianDayFromDate dt.y dt.m dt.d

/-- Qt's `nullJd` sentinel: the Julian day stored in a null `QDate`
(`std::numeric_limits<qint64>::min()`). -/
def nullJd : Int := -(2 ^ 63)

/-- Julian day of a possibly-null `QDate` (`none` is the null date);
this is the key Qt comparisons and `toJulianDay` are based on. -/
def jd : Option Date → Int
  | none => nullJd
  | some dt => dt.toJD

/-- `QDate::year()`: 0 on a null date. -/
def qdYear : Option Date → Int
  | none => 0
  | some dt => dt.y

/-- `QDate::month()`: 0 on a null date. -/
def qdMonth : Option Date → Int
  | none => 0
  | some dt => dt.m

/-- `QDate::day()`: 0 on a null date. -/
def qdDay : Option Date → Int
  | none => 0
  | some dt => dt.d

/-- `QDate::setDate(y, m, d)`: the given date if valid, otherwise the
null date. -/
def setDateQ (y m d : Int) : Option Date :=
  if QtValidYMD y m d then some ⟨y, m, d⟩ else none

/-- `QDate::addYears(n)` on a valid date (Qt 5): add to the year,
skip year 0 when the sign flips, and clamp the day to the month's
length in the target year (`fixedDate`). -/
def Date.addYears (dt : Date) (n : Int) : Date :=
  let y2 := dt.y + n
  let y2 := if (dt.y > 0 ∧ y2 ≤ 0) ∨ (dt.y < 0 ∧ y2 ≥ 0) then
              (if n > 0 then y2 + 1 else y2 - 1)
            else y2
  ⟨y2, dt.m, min dt.d (daysInMonth y2 dt.m)⟩

/-- `QDate::addYears` lifted to possibly-null dates (a null date stays
null, as in Qt). -/
def qdAddYears (o : Option Date) (n : Int) : Option Date :=
  o.map (Date.addYears · n)

/-- Qt 5 `getDateFromJulianDay` (qdatetime.cpp), the inverse
conversion used by `QDate::fromJulianDay`. -/
def getDateFromJulianDay (julianDay : Int) : Date :=
  let a := julianDay + 32044
  let b := (4 * a + 3) / 146097
  let c := a - (146097 * b) / 4
  let d := (4 * c + 3) / 1461
  let e := c - (1461 * d) / 4
  let m := (5 * e + 2) / 153
  let day := e - (153 * m + 2) / 5 + 1
  let month := m + 3 - 12 * (m / 10)
  let year := 100 * b + d - 4800 + m / 10
  ⟨if year ≤ 0 then year - 1 else year, month, day⟩

/-- C++ truncation of a `double` to an integer (toward zero), used in
the `double → qint64` conversion at `QDate::fromJulianDay(currentJD)`. -/
def truncInt (x : ℚ) : Int := if 0 ≤ x then ⌊x⌋ else ⌈x⌉

/-- Qt `qRound` on a rational value: round half away from zero
(`d >= 0.0 ? int(d + 0.5) : int(d - 0.5)`). -/
def qRoundQ (x : ℚ) : Int := if 0 ≤ x then ⌊x + 1/2⌋ else ⌈x - 1/2⌉

/-- Qt `qRound` on a real value (for the Gaussian in `calculateZHR`). -/
noncomputable def qRoundR (x : ℝ) : Int := if 0 ≤ x then ⌊x + 1/2⌋ else ⌈x - 1/2⌉

/-- The placeholder year used for undated ("generic") activity windows:
`int genericYear = 1000;` in the constructor. -/
def genericYear : Int := 1000

/-- `MeteorShower::Activity`: one activity window.  `variableRange` is
the `variable` QList (the `[min, max]` pair when `zhr == -1`), and the
three dates are possibly-null `QDate`s. -/
structure Activity where
  zhr : Int
  variableRange : List Int
  year : Int
  start : Option Date
  finish : Option Date
  peak : Option Date
deriving DecidableEq, Repr

/-- A value-initialized `Activity()` (all fields zero/empty/null). -/
def emptyActivity : Activity := ⟨0, [], 0, none, none, none⟩

/-- One raw activity sub-record of the catalog map, one step above the
string level:
* `zhr`, `year`: the `toInt()` of the corresponding entries (0 when
  absent, as `QVariant::toInt` yields 0);
* `var`: the dash-split pieces of the `variable` string, each `some n`
  when `QString::toInt` succeeds on the piece and `none` otherwise;
* `start`/`finish`/`peak`: `some (month, day)` when the entry is a
  well-formed `"MM.dd"` string, `none` when it is empty or malformed
  (in which case `QDate::fromString` yields an invalid date). -/
structure ActivityInput where
  zhr : Int
  var : List (Option Int)
  year : Int
  start : Option (Int × Int)
  finish : Option (Int × Int)
  peak : Option (Int × Int)
deriving DecidableEq, Repr

/-- The `'variable'` field check in the constructor loop: with
`zhr == -1` the dash-split list must have exactly two pieces and both
must parse as integers, else the whole record is INVALID (`none`). -/
def parseVariable (v : List (Option Int)) : Option (List Int) :=
  match v with
  | [some lo, some hi] => some [lo, hi]
  | _ => none

/-- `QDate::fromString(s + " " + year, "MM.dd yyyy")`: the parse
succeeds exactly when the `MM.dd` part was well formed and the triple
is a valid calendar date; the `yyyy` field only parses non-negative
years, and year 0 is invalid, hence `1 ≤ year`. -/
def fromMMDD (md : Option (Int × Int)) (year : Int) : Option Date :=
  match md with
  | none => none
  | some (m, d) => if 1 ≤ year ∧ QtValidYMD year m d then some ⟨year, m, d⟩ else none

/-- The body of the constructor's activity-building loop for one
sub-record: check the `variable` field, parse the three dates against
the record's year (or `genericYear` when the year is 0), and push
`finish`/`peak` forward one year when they precede `start` (only when
all three dates are valid).  `none` models the constructor's early
`return` that leaves the record INVALID. -/
def parseActivity (ai : ActivityInput) : Option Activity :=
  let vr? : Option (List Int) :=
    if ai.zhr = -1 then parseVariable ai.var else some []
  match vr? with
  | none => none
  | some vr =>
    let yr := if ai.year = 0 then genericYear else ai.year
    let start := fromMMDD ai.start yr
    let finish := fromMMDD ai.finish yr
    let peak := fromMMDD ai.peak yr
    let finish2 :=
      if start.isSome ∧ finish.isSome ∧ peak.isSome then
        (if jd finish < jd start then qdAddYears finish 1 else finish)
      else finish
    let peak2 :=
      if start.isSome ∧ finish.isSome ∧ peak.isSome then
        (if jd peak < jd start then qdAddYears peak 1 else peak)
      else peak
    some ⟨ai.zhr, vr, ai.year, start, finish2, peak2⟩

/-- The whole activity-building loop: parse sub-records in order,
appending to the list; on the first failing record stop with the
prefix built so far and report failure (the early `return`). -/
def buildActivities : List ActivityInput → List Activity × Bool
  | [] => ([], true)
  | ai :: rest =>
    match parseActivity ai with
    | none => ([], false)
    | some a =>
      let r := buildActivities rest
      (a :: r.1, r.2)

/-- One step of the gap-filling loop (`for (int i = 1; ...)`): a window
with `zhr == 0` inherits the generic template's `zhr` and `variable`,
and each still-invalid date is replaced by the template's date shifted
by `year - genericYear` years. -/
def fillFromGeneric (g a : Activity) : Activity :=
  let a := if a.zhr = 0 then { a with zhr := g.zhr, variableRange := g.variableRange } else a
  let aux := a.year - genericYear
  { a with
    start := if a.start.isSome then a.start else qdAddYears g.start aux,
    finish := if a.finish.isSome then a.finish else qdAddYears g.finish aux,
    peak := if a.peak.isSome then a.peak else qdAddYears g.peak aux }

/-- The gap-filling loop over the windows at indices ≥ 1: each window
is filled in place and then checked; a window with a still-invalid
date stops the loop (early `return` leaving the record INVALID), with
the remaining windows left as parsed. -/
def fillAll (g : Activity) : List Activity → List Activity × Bool
  | [] => ([], true)
  | a :: rest =>
    let a' := fillFromGeneric g a
    if a'.start.isSome ∧ a'.finish.isSome ∧ a'.peak.isSome then
      let r := fillAll g rest
      (a' :: r.1, r.2)
    else (a' :: rest, false)

/-- The `colors` processing: keep the parsed (color, intensity) pairs
only when the intensities sum to exactly 100, else discard them; an
empty list falls back to a single white/100 pair. -/
def processColors (c : Option (List (String × Int))) : List (String × Int) :=
  let cs : List (String × Int) :=
    match c with
    | none => []
    | some l => if (l.map Prod.snd).sum = 100 then l else []
  if cs.isEmpty then [("white", 100)] else cs

/-- The shower lifecycle status enum. -/
inductive Status where
  | INVALID
  | UNDEFINED
  | INACTIVE
  | ACTIVE_GENERIC
  | ACTIVE_CONFIRMED
deriving DecidableEq, Repr

/-- The raw catalog record handed to the constructor (the
`QVariantMap`), one step above the string level: presence flags for
the four mandatory keys, the numeric fields already through
`getDecAngle`/`toInt`/`toFloat` (doubles as `ℚ`), the activity
sub-records and the optional color list. -/
structure ShowerInput where
  hasShowerID : Bool
  hasActivity : Bool
  hasRadiantAlpha : Bool
  hasRadiantDelta : Bool
  radiantAlpha : ℚ
  radiantDelta : ℚ
  driftAlpha5 : ℚ
  driftDelta5 : ℚ
  speed : Int
  pidx : ℚ
  activity : List ActivityInput
  colors : Option (List (String × Int))
deriving Repr

/-- The data carried by one spawned meteor entity: the constructor
arguments of `MeteorObj` that come from the shower. -/
structure MeteorState where
  speed : Int
  radiantAlpha : ℚ
  radiantDelta : ℚ
  pidx : ℚ
  colors : List (String × Int)
deriving DecidableEq, Repr

/-- The mutable state of a `MeteorShower` instance (the fields the
simulation core reads and writes). -/
structure Shower where
  status : Status
  speed : Int
  rAlphaPeak : ℚ
  rDeltaPeak : ℚ
  driftAlpha : ℚ
  driftDelta : ℚ
  pidx : ℚ
  radiantAlpha : ℚ
  radiantDelta : ℚ
  activities : List Activity
  currentActivity : Activity
  colors : List (String × Int)
  activeMeteors : List MeteorState
deriving DecidableEq, Repr

/-- `MeteorShower::MeteorShower`: `none` models the out-of-bounds
`m_activities.at(0)` reached when the `activity` entry parses to an
empty list; every other input yields a shower object, INVALID when a
mandatory field is missing or the activity data is bad, UNDEFINED
otherwise.  Drift values are stored divided by 5 (the catalog gives a
five-day interval). -/
def constructShower (inp : ShowerInput) : Option Shower :=
  let base : Shower :=
    { status := .INVALID
      speed := inp.speed
      rAlphaPeak := inp.radiantAlpha
      rDeltaPeak := inp.radiantDelta
      driftAlpha := inp.driftAlpha5 / 5
      driftDelta := inp.driftDelta5 / 5
      pidx := inp.pidx
      radiantAlpha := inp.radiantAlpha
      radiantDelta := inp.radiantDelta
      activities := []
      currentActivity := emptyActivity
      colors := []
      activeMeteors := [] }
  if inp.hasShowerID ∧ inp.hasActivity ∧ inp.hasRadiantAlpha ∧ inp.hasRadiantDelta then
    let (acts, ok) := buildActivities inp.activity
    if ok then
      match acts with
      | [] => none
      | g :: rest =>
        let (filled, ok2) := fillAll g rest
        if ok2 then
          some { base with
                  status := .UNDEFINED
                  activities := g :: filled
                  colors := processColors inp.colors }
        else some { base with activities := g :: filled }
    else some { base with activities := acts }
  else
    some { status := .INVALID, speed := 0, rAlphaPeak := 0, rDeltaPeak := 0,
           driftAlpha := 0, driftDelta := 0, pidx := 0, radiantAlpha := 0,
           radiantDelta := 0, activities := [], currentActivity := emptyActivity,
           colors := [], activeMeteors := [] }

/-- `MeteorShower::enabled`. -/
def enabledB (st : Status) (activeRadiantOnly : Bool) : Bool :=
  if st = .INVALID then false
  else if st = .UNDEFINED then true
  else if activeRadiantOnly then st == .ACTIVE_GENERIC || st == .ACTIVE_CONFIRMED
  else true

/-- `MeteorShower::enabled` as a method of the shower state, reading
the manager's "active radiants only" setting. -/
def Shower.enabled (s : Shower) (activeRadiantOnly : Bool) : Bool :=
  enabledB s.status activeRadiantOnly

/-- The window-containment test of `hasConfirmedShower`:
`date >= a.start && date <= a.finish` (Julian-day comparison of
`QDate`s, inclusive on both ends). -/
def containsDate (a : Activity) (date : Date) : Bool :=
  decide (jd a.start ≤ date.toJD ∧ date.toJD ≤ jd a.finish)

/-- The scan loop of `hasConfirmedShower`
(`for (int i = 1; i < activitiesSize; ++i)`), run on the windows at
indices ≥ 1: return the first window containing the date. -/
def confirmedLoop (date : Date) : List Activity → Option Activity
  | [] => none
  | a :: rest => if containsDate a date then some a else confirmedLoop date rest

/-- `MeteorShower::hasConfirmedShower`: scan the confirmed windows
(indices ≥ 1) in catalog order; `some` is a found window, `none` the
not-found flag. -/
def hasConfirmedShower (acts : List Activity) (date : Date) : Option Activity :=
  confirmedLoop date (acts.drop 1)

/-- `MeteorShower::hasGenericShower`, given the generic template
`g = m_activities.at(0)`.  Mirrors the mutation order of the C++: a
failed first year alignment leaves `g.start`/`g.finish` overwritten,
so the second alignment reads month/day from the already-mutated
dates, and the final peak projection uses the mutated years. -/
def hasGenericShower (g : Activity) (date : Date) : Option Activity :=
  let year := date.y
  let peakOnStart := qdYear g.peak == qdYear g.start
  let finalize : Option Date → Option Date → Option Activity := fun s' f' =>
    some { g with
            year := qdYear s'
            start := s'
            finish := f'
            peak := setDateQ (if peakOnStart then qdYear s' else qdYear f')
                             (qdMonth g.peak) (qdDay g.peak) }
  if qdYear g.start ≠ qdYear g.finish then
    let s1 := setDateQ year (qdMonth g.start) (qdDay g.start)
    let f1 := setDateQ (year + 1) (qdMonth g.finish) (qdDay g.finish)
    if jd s1 ≤ date.toJD ∧ date.toJD ≤ jd f1 then finalize s1 f1
    else
      let s2 := setDateQ (year - 1) (qdMonth s1) (qdDay s1)
      let f2 := setDateQ year (qdMonth f1) (qdDay f1)
      if jd s2 ≤ date.toJD ∧ date.toJD ≤ jd f2 then finalize s2 f2 else none
  else
    let s1 := setDateQ year (qdMonth g.start) (qdDay g.start)
    let f1 := setDateQ year (qdMonth g.finish) (qdDay g.finish)
    if jd s1 ≤ date.toJD ∧ date.toJD ≤ jd f1 then finalize s1 f1 else none

/-- The status/activity resolution at the top of
`MeteorShower::update`: try `hasConfirmedShower` first, then
`hasGenericShower` on the template at index 0, else INACTIVE with a
value-initialized `Activity()`.  `none` models the out-of-bounds
`m_activities.at(0)` inside `hasGenericShower` on an empty list. -/
def resolveActivity (acts : List Activity) (date : Date) : Option (Activity × Status) :=
  match hasConfirmedShower acts date with
  | some a => some (a, .ACTIVE_CONFIRMED)
  | none =>
    match acts with
    | [] => none
    | g :: _ =>
      match hasGenericShower g date with
      | some a => some (a, .ACTIVE_GENERIC)
      | none => some (emptyActivity, .INACTIVE)

/-- `MeteorShower::calculateZHR`: the one-sided Gaussian rate.  `none`
models the out-of-bounds `variable.at(1)` / `variable.at(0)` when
`zhr == -1` but the range has fewer than two entries. -/
noncomputable def calculateZHR (act : Activity) (currentJD : ℚ) : Option Int :=
  let startJD : ℚ := (jd act.start : ℚ)
  let finishJD : ℚ := (jd act.finish : ℚ)
  let peakJD : ℚ := (jd act.peak : ℚ)
  let sd : ℚ :=
    if startJD ≤ currentJD ∧ currentJD < peakJD then (peakJD - startJD) / 2
    else (finishJD - peakJD) / 2
  match (if act.zhr = -1 then act.variableRange[1]? else some act.zhr : Option Int),
        (if act.zhr = -1 then act.variableRange[0]? else some 0 : Option Int) with
  | some maxZHR, some minZHR =>
    some (qRoundR ((maxZHR : ℝ) *
            Real.exp (-((currentJD : ℝ) - (peakJD : ℝ)) ^ 2 / ((sd : ℝ) * (sd : ℝ)))
          + (minZHR : ℝ)))
  | _, _ => none

/-- The spawning block at the bottom of `MeteorShower::update`: if the
rounded rate is below 1 nothing spawns; otherwise
`mpf = currentZHR * deltaTime / 3600`, `maxMpf = max(1, qRound(mpf))`,
and `maxMpf` Bernoulli draws are made, each adding one meteor when the
uniform draw is below `mpf / maxMpf` and the new entity passes its
viability check. -/
def spawnMeteors (z : Int) (deltaTime : ℚ) (rands : Nat → ℚ)
    (alive : MeteorState → Bool) (proto : MeteorState) : List MeteorState :=
  if z < 1 then []
  else
    let mpf : ℚ := (z : ℚ) * deltaTime / 3600
    let m0 := qRoundQ mpf
    let maxMpf : Int := if m0 < 1 then 1 else m0
    let rate : ℚ := mpf / (maxMpf : ℚ)
    (List.range maxMpf.toNat).filterMap fun i =>
      if rands i < rate then (if alive proto then some proto else none) else none

/-- The per-tick inputs of `MeteorShower::update`: the core's Julian
day and elapsed time, the clock-direction flag, the manager's
"active radiants only" setting, and oracles for the process-wide
random generator and the opaque `MeteorObj` behaviour. -/
structure TickEnv where
  currentJD : ℚ
  deltaTime : ℚ
  realTimeSpeed : Bool
  activeRadiantOnly : Bool
  rands : Nat → ℚ
  meteorSurvives : MeteorState → Bool
  spawnAlive : MeteorState → Bool

/-- The status/activity assignment at the top of `update`
(`m_status = ...; m_activity = ...`). -/
def afterResolve (s : Shower) (act : Activity) (st : Status) : Shower :=
  { s with status := st, currentActivity := act }

/-- The radiant-position recomputation of `update`: start from the
peak radiant and, when the (just-resolved) status is not INACTIVE, add
`drift * (currentJD - peakJD)` on each axis. -/
def afterRadiant (s1 : Shower) (currentJD : ℚ) : Shower :=
  if s1.status ≠ .INACTIVE then
    { s1 with
        radiantAlpha := s1.rAlphaPeak +
          s1.driftAlpha * (currentJD - (jd s1.currentActivity.peak : ℚ))
        radiantDelta := s1.rDeltaPeak +
          s1.driftDelta * (currentJD - (jd s1.currentActivity.peak : ℚ)) }
  else { s1 with radiantAlpha := s1.rAlphaPeak, radiantDelta := s1.rDeltaPeak }

/-- The meteor-aging loop of `update`: keep exactly the active meteors
whose own `update` reports them still alive. -/
def afterAging (s2 : Shower) (surv : MeteorState → Bool) : Shower :=
  { s2 with activeMeteors := s2.activeMeteors.filter surv }

/-- `MeteorShower::update`: no-op when INVALID; resolve the status and
activity for the current date; stop if not enabled; recompute the
radiant from the peak radiant (drift applied only when not INACTIVE);
age the active meteors; stop when the clock is not running forward;
compute the ZHR and spawn.  `none` models an out-of-bounds `QList`
access inside the tick. -/
noncomputable def updateShower (s : Shower) (env : TickEnv) : Option Shower :=
  if s.status = .INVALID then some s
  else
    let currentDate := getDateFromJulianDay (truncInt env.currentJD)
    match resolveActivity s.activities currentDate with
    | none => none
    | some (act, st) =>
      let s1 := afterResolve s act st
      if enabledB st env.activeRadiantOnly then
        let s3 := afterAging (afterRadiant s1 env.currentJD) env.meteorSurvives
        if env.realTimeSpeed then
          (calculateZHR act env.currentJD).map fun z =>
            let proto : MeteorState := ⟨s3.speed, s3.radiantAlpha, s3.radiantDelta, s3.pidx, s3.colors⟩
            { s3 with activeMeteors := s3.activeMeteors ++
                        spawnMeteors z env.deltaTime env.rands env.spawnAlive proto }
        else some s3
      else some s1

/-- The generic-template resolution step as the specification words
it: with a year-spanning template, try the alignments
(currentYear, currentYear+1) then (currentYear−1, currentYear),
accepting whichever inclusive range contains the date; otherwise
project both ends onto the date's year; on a match project the peak
onto the start's year exactly when peak and start were originally in
the same year, else onto the finish's year. -/
def genericResolveSpec (g : Activity) (date : Date) : Option Activity :=
  let tryYears : Int → Int → Option (Option Date × Option Date) := fun ys yf =>
    let s := setDateQ ys (qdMonth g.start) (qdDay g.start)
    let f := setDateQ yf (qdMonth g.finish) (qdDay g.finish)
    if jd s ≤ date.toJD ∧ date.toJD ≤ jd f then some (s, f) else none
  let aligned : Option (Option Date × Option Date) :=
    if qdYear g.start ≠ qdYear g.finish then
      (tryYears date.y (date.y + 1)).orElse fun _ => tryYears (date.y - 1) date.y
    else tryYears date.y date.y
  aligned.map fun sf =>
    let peakYear := if qdYear g.peak = qdYear g.start then qdYear sf.1 else qdYear sf.2
    { g with year := qdYear sf.1, start := sf.1, finish := sf.2,
             peak := setDateQ peakYear (qdMonth g.peak) (qdDay g.peak) }

/-- A catalog record with all four mandatory fields present and
everything else empty/zero. -/
def baseInput : ShowerInput :=
  { hasShowerID := true, hasActivity := true, hasRadiantAlpha := true, hasRadiantDelta := true
    radiantAlpha := 0, radiantDelta := 0, driftAlpha5 := 0, driftDelta5 := 0
    speed := 0, pidx := 0, activity := [], colors := none }

/-- The parsed form of a year-spanning generic activity record
(`start = 12.20`, `finish = 01.05`, `peak = 12.25`). -/
def c6WitnessActivity : Activity :=
  ⟨10, [], 0, some ⟨1000, 12, 20⟩, some ⟨1001, 1, 5⟩, some ⟨1000, 12, 25⟩⟩

/-- The all-zero INVALID shower produced for a record with a missing
mandatory field. -/
def invalidZeroShower : Shower :=
  { status := .INVALID, speed := 0, rAlphaPeak := 0, rDeltaPeak := 0, driftAlpha := 0,
    driftDelta := 0, pidx := 0, radiantAlpha := 0, radiantDelta := 0, activities := [],
    currentActivity := emptyActivity, colors := [], activeMeteors := [] }

/-- A concrete tick environment. -/
def trivialEnv : TickEnv :=
  { currentJD := 0, deltaTime := 0, realTimeSpeed := true, activeRadiantOnly := false,
    rands := fun _ => 0, meteorSurvives := fun _ => true, spawnAlive := fun _ => true }

/-- A two-window shower: the generic template and one confirmed 2020
window. -/
def c2Acts : List Activity :=
  [⟨10, [], 0, some ⟨1000, 1, 1⟩, some ⟨1000, 1, 20⟩, some ⟨1000, 1, 10⟩⟩,
   ⟨20, [], 2020, some ⟨2020, 8, 1⟩, some ⟨2020, 8, 20⟩, some ⟨2020, 8, 12⟩⟩]

/-- A year-spanning generic template (Dec 20 – Jan 5, peak Dec 25). -/
def c3Template : Activity :=
  ⟨10, [], 0, some ⟨1000, 12, 20⟩, some ⟨1001, 1, 5⟩, some ⟨1000, 12, 25⟩⟩

/-- A simple fixed-rate activity window: Jan 1 – Jan 20, peak Jan 10
of 2000, `zhr = 10`. -/
def c4Act : Activity :=
  ⟨10, [], 0, some ⟨2000, 1, 1⟩, some ⟨2000, 1, 20⟩, some ⟨2000, 1, 10⟩⟩

/-! ## Well-formedness of shower state -/

/-- The per-window invariant established by construction: a variable
window carries exactly two range entries. -/
def ActInv (a : Activity) : Prop := a.zhr = -1 → a.variableRange.length = 2

/-- The state invariant a successful construction establishes and
`update` preserves: unless the shower is INVALID, its activity list is
nonempty (index 0 exists) and every window — including the one
currently resolved — satisfies `ActInv`. -/
def ShowerWF (sh : Shower) : Prop :=
  sh.status ≠ .INVALID →
    sh.activities ≠ [] ∧ (∀ a ∈ sh.activities, ActInv a) ∧ ActInv sh.currentActivity

/-- A minimal well-formed active shower: one generic window, status
UNDEFINED. -/
def c7Shower : Shower :=
  { invalidZeroShower with status := .UNDEFINED, activities := [c4Act] }

/-- A prototype meteor entity. -/
def protoW : MeteorState := ⟨0, 0, 0, 0, [("white", 100)]⟩


example : setDateQ 2000 2 29 = some ⟨2000, 2, 29⟩ := by decide
example : setDateQ 1000 2 29 = none := by decide
example : (Date.toJD ⟨2000, 1, 1⟩) = 2451545 := by decide
example : getDateFromJulianDay 2451545 = ⟨2000, 1, 1⟩ := by decide
example : (Date.addYears ⟨2000, 2, 29⟩ 1) = ⟨2001, 2, 28⟩ := by decide
example : qRoundQ (7/2) = 4 := by norm_num [qRoundQ]
example : qRoundQ (-7/2) = -4 := by
  norm_num [qRoundQ]
  have : ((-4 : Int) : ℚ) = -4 := by norm_num
  rw [← this, Int.ceil_intCast]

/-! ## Helper lemmas on dates -/

lemma daysInMonth_le_31 (y m : Int) : daysInMonth y m ≤ 31 := by
  unfold daysInMonth
  split
  · split <;> omega
  · split <;> omega

lemma daysInMonth_ge_28 (y m : Int) : 28 ≤ daysInMonth y m := by
  unfold daysInMonth
  split
  · split <;> omega
  · split <;> omega

lemma QtValidYMD_bounds {y m d : Int} (h : QtValidYMD y m d) :
    1 ≤ m ∧ m ≤ 12 ∧ 1 ≤ d ∧ d ≤ 31 :=
  ⟨h.2.1, h.2.2.1, h.2.2.2.1, le_trans h.2.2.2.2 (daysInMonth_le_31 _ _)⟩

lemma jdfd_pos_eq (year month day : Int) (hy : 1 ≤ year) :
    julianDayFromDate year month day =
      day + (153 * (month + 12 * ((14 - month) / 12) - 3) + 2) / 5
        + 365 * (year + 4800 - (14 - month) / 12)
        + (year + 4800 - (14 - month) / 12) / 4
        - (year + 4800 - (14 - month) / 12) / 100
        + (year + 4800 - (14 - month) / 12) / 400 - 32045 := by
  unfold julianDayFromDate
  rw [if_neg (by omega)]

/-- The Julian day number is strictly monotone across years, for
month/day fields in their gross ranges (month 1..12, day 1..31) and
positive years. -/
lemma toJD_lt_of_year_lt (d1 d2 : Date)
    (hy1 : 1 ≤ d1.y) (hm1 : 1 ≤ d1.m) (hm1' : d1.m ≤ 12) (hd1 : 1 ≤ d1.d) (hd1' : d1.d ≤ 31)
    (hy2 : 1 ≤ d2.y) (hm2 : 1 ≤ d2.m) (hm2' : d2.m ≤ 12) (hd2 : 1 ≤ d2.d) (hd2' : d2.d ≤ 31)
    (hy : d1.y < d2.y) :
    d1.toJD < d2.toJD := by
  rw [Date.toJD, Date.toJD, jdfd_pos_eq d1.y d1.m d1.d hy1, jdfd_pos_eq d2.y d2.m d2.d hy2]
  rcases d1 with ⟨y1, m1, dd1⟩
  rcases d2 with ⟨y2, m2, dd2⟩
  simp only at *
  interval_cases m1 <;> interval_cases m2 <;> omega

lemma fromMMDD_eq_some {md : Option (Int × Int)} {yr : Int} {dt : Date}
    (h : fromMMDD md yr = some dt) :
    dt.y = yr ∧ 1 ≤ yr ∧ QtValidYMD dt.y dt.m dt.d := by
  cases md with
  | none => simp [fromMMDD] at h
  | some p =>
    obtain ⟨m, d⟩ := p
    rw [fromMMDD] at h
    by_cases hv : 1 ≤ yr ∧ QtValidYMD yr m d
    · rw [if_pos hv] at h
      cases Option.some.inj h
      exact ⟨rfl, hv.1, hv.2⟩
    · rw [if_neg hv] at h
      exact absurd h (by simp)

lemma addYears_one_pos (dt : Date) (h : 1 ≤ dt.y) :
    dt.addYears 1 = ⟨dt.y + 1, dt.m, min dt.d (daysInMonth (dt.y + 1) dt.m)⟩ := by
  simp only [Date.addYears]
  rw [if_neg (by omega)]

/-! ## C6: ordering of normalized activity dates -/

/-- C6 (amended): after date normalization, an activity record whose
`start`, `finish` and `peak` all parsed to valid dates satisfies
`start ≤ finish` and `start ≤ peak` — the finish and peak having been
pushed forward one year whenever they would otherwise precede the
start.  (`peak ≤ finish` is not enforced by the constructor, and
gap-filled windows may mix parsed and inherited dates; see the
counterexample.) -/
theorem c6_normalization_order (ai : ActivityInput) (a : Activity)
    (hpa : parseActivity ai = some a)
    (hs : a.start.isSome = true) (hf : a.finish.isSome = true) (hp : a.peak.isSome = true) :
    jd a.start ≤ jd a.finish ∧ jd a.start ≤ jd a.peak := by
  simp only [parseActivity] at hpa
  rcases hvr : (if ai.zhr = -1 then parseVariable ai.var else some ([] : List Int)) with _ | vr
  · rw [hvr] at hpa; simp at hpa
  · rw [hvr] at hpa
    simp only [Option.some.injEq] at hpa
    subst hpa
    dsimp only at hs hf hp ⊢
    generalize hYr : (if ai.year = 0 then genericYear else ai.year) = yr at hs hf hp ⊢
    by_cases hcf : (fromMMDD ai.finish yr).isSome = true
    case neg =>
      have hcond : ¬((fromMMDD ai.start yr).isSome = true ∧
          (fromMMDD ai.finish yr).isSome = true ∧ (fromMMDD ai.peak yr).isSome = true) :=
        fun h => hcf h.2.1
      rw [if_neg hcond] at hf
      exact absurd hf hcf
    by_cases hcp : (fromMMDD ai.peak yr).isSome = true
    case neg =>
      have hcond : ¬((fromMMDD ai.start yr).isSome = true ∧
          (fromMMDD ai.finish yr).isSome = true ∧ (fromMMDD ai.peak yr).isSome = true) :=
        fun h => hcp h.2.2
      rw [if_neg hcond] at hp
      exact absurd hp hcp
    have hcond : (fromMMDD ai.start yr).isSome = true ∧
        (fromMMDD ai.finish yr).isSome = true ∧ (fromMMDD ai.peak yr).isSome = true :=
      ⟨hs, hcf, hcp⟩
    rw [if_pos hcond, if_pos hcond]
    obtain ⟨ds, hds⟩ := Option.isSome_iff_exists.mp hs
    obtain ⟨df, hdf⟩ := Option.isSome_iff_exists.mp hcf
    obtain ⟨dp, hdp⟩ := Option.isSome_iff_exists.mp hcp
    obtain ⟨hdsy, hyr, hdsv⟩ := fromMMDD_eq_some hds
    obtain ⟨hdfy, -, hdfv⟩ := fromMMDD_eq_some hdf
    obtain ⟨hdpy, -, hdpv⟩ := fromMMDD_eq_some hdp
    obtain ⟨hbs1, hbs2, hbs3, hbs4⟩ := QtValidYMD_bounds hdsv
    obtain ⟨hbf1, hbf2, hbf3, hbf4⟩ := QtValidYMD_bounds hdfv
    obtain ⟨hbp1, hbp2, hbp3, hbp4⟩ := QtValidYMD_bounds hdpv
    rw [hds, hdf, hdp]
    constructor
    · by_cases hlt : jd (some df) < jd (some ds)
      · rw [if_pos hlt]
        simp only [qdAddYears, Option.map_some', jd]
        rw [addYears_one_pos df (by omega)]
        refine le_of_lt (toJD_lt_of_year_lt ds _ (by omega) hbs1 hbs2 hbs3 hbs4 ?_ ?_ ?_ ?_ ?_ ?_)
        · simp only; omega
        · exact hbf1
        · exact hbf2
        · simp only
          have := daysInMonth_ge_28 (df.y + 1) df.m
          omega
        · simp only; omega
        · simp only; omega
      · rw [if_neg hlt]; omega
    · by_cases hlt : jd (some dp) < jd (some ds)
      · rw [if_pos hlt]
        simp only [qdAddYears, Option.map_some', jd]
        rw [addYears_one_pos dp (by omega)]
        refine le_of_lt (toJD_lt_of_year_lt ds _ (by omega) hbs1 hbs2 hbs3 hbs4 ?_ ?_ ?_ ?_ ?_ ?_)
        · simp only; omega
        · exact hbp1
        · exact hbp2
        · simp only
          have := daysInMonth_ge_28 (dp.y + 1) dp.m
          omega
        · simp only; omega
        · simp only; omega
      · rw [if_neg hlt]; omega


/-- C6 counterexample: a record whose generic window parses with
`start = 01.01`, `finish = 03.01`, `peak = 06.15` constructs
successfully (status UNDEFINED), yet its window has `peak > finish`:
the constructor never enforces `peak ≤ finish`, so the claimed
invariant `start ≤ peak ≤ finish` fails on this input. -/
theorem c6_counterexample :
    (constructShower { baseInput with
        activity := [⟨10, [], 0, some (1, 1), some (3, 1), some (6, 15)⟩] }).map
        (fun sh => (sh.status,
          sh.activities.map fun a =>
            (decide (jd a.start ≤ jd a.peak), decide (jd a.peak ≤ jd a.finish)))) =
      some (.UNDEFINED, [(true, false)]) := by decide


theorem c6_normalization_order_witness :
    jd c6WitnessActivity.start ≤ jd c6WitnessActivity.finish ∧
    jd c6WitnessActivity.start ≤ jd c6WitnessActivity.peak :=
  c6_normalization_order ⟨10, [], 0, some (12, 20), some (1, 5), some (12, 25)⟩
    c6WitnessActivity (by decide) (by decide) (by decide) (by decide)

/-! ## C9: empty activity list -/

/-- C9: with all four mandatory fields present but an `activity` entry
that parses to an empty list, the constructor reaches
`m_activities.at(0)` on an empty QList — an out-of-bounds access
(modelled `none`) — rather than producing an INVALID record. -/
theorem c9_empty_activity_out_of_bounds (inp : ShowerInput)
    (hmand : inp.hasShowerID = true ∧ inp.hasActivity = true ∧
             inp.hasRadiantAlpha = true ∧ inp.hasRadiantDelta = true)
    (hempty : inp.activity = []) :
    constructShower inp = none := by
  obtain ⟨h1, h2, h3, h4⟩ := hmand
  simp [constructShower, h1, h2, h3, h4, hempty, buildActivities]

theorem c9_empty_activity_out_of_bounds_witness :
    constructShower baseInput = none :=
  c9_empty_activity_out_of_bounds baseInput (by decide) rfl

/-! ## C10: gap-filling sentinels -/

/-- C10: in the gap-filling step applied to every non-generic window
(index ≥ 1), the window inherits the generic template's `zhr` and
`variable` range exactly when its own `zhr` is 0 (so a confirmed
window cataloged with rate 0 is overwritten), and each of its three
dates is independently replaced by the template's date shifted by
`year − genericYear` years exactly when that date is invalid
(i.e. failed to parse). -/
theorem c10_gap_fill_sentinels (g a : Activity) :
    ((fillFromGeneric g a).zhr = if a.zhr = 0 then g.zhr else a.zhr) ∧
    ((fillFromGeneric g a).variableRange =
      if a.zhr = 0 then g.variableRange else a.variableRange) ∧
    ((fillFromGeneric g a).start =
      if a.start.isSome then a.start else qdAddYears g.start (a.year - genericYear)) ∧
    ((fillFromGeneric g a).finish =
      if a.finish.isSome then a.finish else qdAddYears g.finish (a.year - genericYear)) ∧
    ((fillFromGeneric g a).peak =
      if a.peak.isSome then a.peak else qdAddYears g.peak (a.year - genericYear)) := by
  by_cases hz : a.zhr = 0 <;> simp [fillFromGeneric, hz]

/-! ## C1: fails closed -/

lemma parseActivity_badvar {ai : ActivityInput}
    (hz : ai.zhr = -1) (hv : parseVariable ai.var = none) :
    parseActivity ai = none := by
  simp [parseActivity, hz, hv]

lemma buildActivities_flag_false {l : List ActivityInput}
    (h : ∃ ai ∈ l, parseActivity ai = none) :
    (buildActivities l).2 = false := by
  induction l with
  | nil => simp at h
  | cons x xs ih =>
    obtain ⟨ai, hmem, hnone⟩ := h
    rcases List.mem_cons.mp hmem with rfl | hmem'
    · simp [buildActivities, hnone]
    · cases hx : parseActivity x with
      | none => simp [buildActivities, hx]
      | some a =>
        simp only [buildActivities, hx]
        exact ih ⟨ai, hmem', hnone⟩

/-- C1 (amended): construction fails closed, with the proviso that the
invalid-date check only covers the windows subjected to gap-filling
(indices ≥ 1): if a mandatory field is missing, or some activity
sub-record has `zhr == -1` with a malformed `variable` field, or the
gap-filling loop finds a window at index ≥ 1 with a still-invalid
date, the shower is INVALID; and an INVALID shower is INVALID forever:
`enabled()` is false unconditionally and `update()` is a no-op.  (An
invalid date in the generic window at index 0 is *not* caught; see the
counterexample.) -/
theorem c1_fails_closed (inp : ShowerInput) (sh : Shower)
    (hc : constructShower inp = some sh) :
    ((¬ (inp.hasShowerID = true ∧ inp.hasActivity = true ∧
         inp.hasRadiantAlpha = true ∧ inp.hasRadiantDelta = true)) → sh.status = .INVALID) ∧
    ((∃ ai ∈ inp.activity, ai.zhr = -1 ∧ parseVariable ai.var = none) → sh.status = .INVALID) ∧
    (∀ g rest, buildActivities inp.activity = (g :: rest, true) →
        (fillAll g rest).2 = false → sh.status = .INVALID) ∧
    (sh.status = .INVALID →
        (∀ aro, sh.enabled aro = false) ∧ (∀ env, updateShower sh env = some sh)) := by
  refine ⟨?_, ?_, ?_, ?_⟩
  · intro hnm
    simp only [constructShower] at hc
    rw [if_neg hnm] at hc
    cases Option.some.inj hc
    rfl
  · intro hbad
    have hflag : (buildActivities inp.activity).2 = false := by
      refine buildActivities_flag_false ?_
      obtain ⟨ai, hmem, hz, hv⟩ := hbad
      exact ⟨ai, hmem, parseActivity_badvar hz hv⟩
    by_cases hm : inp.hasShowerID = true ∧ inp.hasActivity = true ∧
        inp.hasRadiantAlpha = true ∧ inp.hasRadiantDelta = true
    · simp only [constructShower] at hc
      rw [if_pos hm] at hc
      rcases hba : buildActivities inp.activity with ⟨acts, ok⟩
      rw [hba] at hc hflag
      simp only at hflag
      subst hflag
      simp only [Bool.false_eq_true, if_false] at hc
      cases Option.some.inj hc
      rfl
    · simp only [constructShower] at hc
      rw [if_neg hm] at hc
      cases Option.some.inj hc
      rfl
  · intro g rest hba hfill
    by_cases hm : inp.hasShowerID = true ∧ inp.hasActivity = true ∧
        inp.hasRadiantAlpha = true ∧ inp.hasRadiantDelta = true
    · simp only [constructShower] at hc
      rw [if_pos hm, hba] at hc
      simp only [if_true] at hc
      rcases hfa : fillAll g rest with ⟨filled, ok2⟩
      rw [hfa] at hc hfill
      simp only at hfill
      subst hfill
      simp only [Bool.false_eq_true, if_false] at hc
      cases Option.some.inj hc
      rfl
    · simp only [constructShower] at hc
      rw [if_neg hm] at hc
      cases Option.some.inj hc
      rfl
  · intro hI
    constructor
    · intro aro
      simp [Shower.enabled, enabledB, hI]
    · intro env
      simp [updateShower, hI]

/-- C1 counterexample: a record with all mandatory fields whose single
(generic, index-0) activity window has an empty `start` — an invalid
date that survives "gap-filling" untouched — constructs with status
UNDEFINED, not INVALID: the claim's "any activity window still has an
invalid date after gap-filling ⇒ INVALID" is false for the window at
index 0. -/
theorem c1_counterexample :
    (constructShower { baseInput with
        activity := [⟨10, [], 0, none, some (1, 20), some (1, 10)⟩] }).map
        (fun sh => (sh.status, sh.activities.map fun a => a.start.isSome)) =
      some (.UNDEFINED, [false]) := by decide


theorem c1_fails_closed_witness :
    invalidZeroShower.status = .INVALID ∧
    invalidZeroShower.enabled true = false ∧
    invalidZeroShower.enabled false = false ∧
    updateShower invalidZeroShower trivialEnv = some invalidZeroShower := by
  have h := c1_fails_closed { baseInput with hasRadiantAlpha := false }
    invalidZeroShower (by decide)
  have hI : invalidZeroShower.status = .INVALID := h.1 (by decide)
  exact ⟨hI, (h.2.2.2 hI).1 true, (h.2.2.2 hI).1 false, (h.2.2.2 hI).2 trivialEnv⟩

/-! ## C2: confirmed-window precedence -/

lemma confirmedLoop_some_char {date : Date} {l : List Activity} {a : Activity}
    (h : confirmedLoop date l = some a) :
    ∃ i : Nat, l[i]? = some a ∧ containsDate a date = true ∧
      ∀ j : Nat, j < i → ∀ b, l[j]? = some b → containsDate b date = false := by
  induction l with
  | nil => simp [confirmedLoop] at h
  | cons x xs ih =>
    rw [confirmedLoop] at h
    by_cases hx : containsDate x date = true
    · rw [if_pos hx] at h
      cases Option.some.inj h
      exact ⟨0, by simp, hx, fun j hj b _ => absurd hj (by omega)⟩
    · rw [if_neg hx] at h
      obtain ⟨i, hi, hca, hmin⟩ := ih h
      refine ⟨i + 1, by simpa using hi, hca, ?_⟩
      intro j hj b hb
      cases j with
      | zero =>
        simp only [List.getElem?_cons_zero, Option.some.injEq] at hb
        subst hb
        exact Bool.not_eq_true _ ▸ Bool.of_not_eq_true hx
      | succ j' =>
        apply hmin j' (by omega) b
        simpa using hb

lemma confirmedLoop_none_char {date : Date} {l : List Activity}
    (h : confirmedLoop date l = none) :
    ∀ b ∈ l, containsDate b date = false := by
  induction l with
  | nil => simp
  | cons x xs ih =>
    rw [confirmedLoop] at h
    by_cases hx : containsDate x date = true
    · rw [if_pos hx] at h; cases h
    · rw [if_neg hx] at h
      intro b hb
      rcases List.mem_cons.mp hb with rfl | hb'
      · exact Bool.of_not_eq_true hx
      · exact ih h b hb'

/-- C2: the resolver scans the confirmed windows (indices ≥ 1) in
catalog order and returns the first whose inclusive `[start, finish]`
range contains the date, with status ACTIVE_CONFIRMED; the generic
template is consulted only when no confirmed window matches, so the
result is never simultaneously confirmed and generic, and a confirmed
match always takes precedence. -/
theorem c2_confirmed_precedence (acts : List Activity) (date : Date) :
    (∀ a, hasConfirmedShower acts date = some a →
       resolveActivity acts date = some (a, Status.ACTIVE_CONFIRMED) ∧
       ∃ i : Nat, (acts.drop 1)[i]? = some a ∧ containsDate a date = true ∧
         ∀ j : Nat, j < i → ∀ b, (acts.drop 1)[j]? = some b → containsDate b date = false) ∧
    (hasConfirmedShower acts date = none →
       (∀ b ∈ acts.drop 1, containsDate b date = false) ∧
       ∀ p, resolveActivity acts date = some p → p.2 ≠ Status.ACTIVE_CONFIRMED) := by
  constructor
  · intro a ha
    refine ⟨?_, confirmedLoop_some_char ha⟩
    simp only [resolveActivity]
    rw [ha]
  · intro hn
    refine ⟨confirmedLoop_none_char hn, ?_⟩
    intro p hp
    simp only [resolveActivity] at hp
    rw [hn] at hp
    cases acts with
    | nil => simp at hp
    | cons g rest =>
      dsimp only at hp
      cases hg : hasGenericShower g date with
      | some a2 =>
        rw [hg] at hp
        cases Option.some.inj hp
        simp
      | none =>
        rw [hg] at hp
        cases Option.some.inj hp
        simp


theorem c2_confirmed_precedence_witness :
    resolveActivity c2Acts ⟨2020, 8, 10⟩ =
      some (⟨20, [], 2020, some ⟨2020, 8, 1⟩, some ⟨2020, 8, 20⟩, some ⟨2020, 8, 12⟩⟩,
            Status.ACTIVE_CONFIRMED) :=
  ((c2_confirmed_precedence c2Acts ⟨2020, 8, 10⟩).1
    ⟨20, [], 2020, some ⟨2020, 8, 1⟩, some ⟨2020, 8, 20⟩, some ⟨2020, 8, 12⟩⟩ (by decide)).1

/-! ## C3: generic-template year alignment -/

lemma daysInMonth_indep {m : Int} (hm : m ≠ 2) (y y' : Int) :
    daysInMonth y m = daysInMonth y' m := by
  unfold daysInMonth
  rw [if_neg hm, if_neg hm]

lemma daysInMonth_feb_le (y : Int) : daysInMonth y 2 ≤ 29 := by
  unfold daysInMonth
  rw [if_pos rfl]
  split <;> omega

lemma valid_any_year {y0 m d : Int} (h : QtValidYMD y0 m d) (h29 : ¬(m = 2 ∧ d = 29))
    (y : Int) (hy : y ≠ 0) : QtValidYMD y m d := by
  obtain ⟨-, hm1, hm2, hd1, hd2⟩ := h
  refine ⟨hy, hm1, hm2, hd1, ?_⟩
  by_cases hm : m = 2
  · subst hm
    have h1 : daysInMonth y0 2 ≤ 29 := daysInMonth_feb_le y0
    have h2 : 28 ≤ daysInMonth y 2 := daysInMonth_ge_28 y 2
    have h3 : d ≠ 29 := fun hd => h29 ⟨rfl, hd⟩
    omega
  · rw [daysInMonth_indep hm y y0]
    exact hd2

/-- C3 (amended): for a generic template with valid, non-Feb-29 dates
(every template parsed against the non-leap `genericYear` satisfies
this) and a query date none of whose projected years — the date's year
and its two neighbours — is the nonexistent year 0 (equivalently, a
query year ≤ −2 or ≥ 2), the code's `hasGenericShower` computes
exactly the specification's resolution: with a year-spanning template
try the alignments (currentYear, currentYear+1) then (currentYear−1,
currentYear), accepting whichever inclusive range contains the date,
else project start and finish onto the date's year; on a match the
peak is projected onto the start's year exactly when peak and start
were originally in the same year, else onto the finish's year.  (For
query dates next to year 0 this fails: a year alignment that projects
onto year 0 nulls the projected date, and the code's second alignment
then reads month 0 / day 0 from it; see the counterexample.) -/
theorem c3_generic_resolution (g : Activity) (date : Date) (ds df dp : Date)
    (hs : g.start = some ds) (hf : g.finish = some df) (hp : g.peak = some dp)
    (hvs : QtValidYMD ds.y ds.m ds.d) (hvf : QtValidYMD df.y df.m df.d)
    (hvp : QtValidYMD dp.y dp.m dp.d)
    (h29s : ¬(ds.m = 2 ∧ ds.d = 29)) (h29f : ¬(df.m = 2 ∧ df.d = 29))
    (h29p : ¬(dp.m = 2 ∧ dp.d = 29))
    (hYm : date.y ≠ -1) (hY0 : date.y ≠ 0) (hYp : date.y ≠ 1) :
    hasGenericShower g date = genericResolveSpec g date := by
  have eS : ∀ y : Int, y ≠ 0 → setDateQ y ds.m ds.d = some ⟨y, ds.m, ds.d⟩ :=
    fun y hy => by rw [setDateQ, if_pos (valid_any_year hvs h29s y hy)]
  have eF : ∀ y : Int, y ≠ 0 → setDateQ y df.m df.d = some ⟨y, df.m, df.d⟩ :=
    fun y hy => by rw [setDateQ, if_pos (valid_any_year hvf h29f y hy)]
  have eP : ∀ y : Int, y ≠ 0 → setDateQ y dp.m dp.d = some ⟨y, dp.m, dp.d⟩ :=
    fun y hy => by rw [setDateQ, if_pos (valid_any_year hvp h29p y hy)]
  have e1 := eS date.y (by omega)
  have e2 := eS (date.y - 1) (by omega)
  have e3 := eF (date.y + 1) (by omega)
  have e4 := eF date.y (by omega)
  have e5 := eP date.y (by omega)
  have e6 := eP (date.y + 1) (by omega)
  have e7 := eP (date.y - 1) (by omega)
  simp only [hasGenericShower, genericResolveSpec, hs, hf, hp, qdYear, qdMonth, qdDay,
    e1, e2, e3, e4, e5, e6, e7]
  by_cases hyy : ds.y = df.y
  · by_cases hc : jd (some ⟨date.y, ds.m, ds.d⟩) ≤ date.toJD ∧
        date.toJD ≤ jd (some ⟨date.y, df.m, df.d⟩)
    · by_cases hpk : dp.y = ds.y <;>
        simp [hyy, hc, hpk, Option.orElse, qdYear, e5, e6, e7]
    · simp [hyy, hc, Option.orElse]
  · by_cases hc1 : jd (some ⟨date.y, ds.m, ds.d⟩) ≤ date.toJD ∧
        date.toJD ≤ jd (some ⟨date.y + 1, df.m, df.d⟩)
    · by_cases hpk : dp.y = ds.y <;>
        simp [hyy, hc1, hpk, Option.orElse, qdYear, e5, e6, e7]
    · by_cases hc2 : jd (some ⟨date.y - 1, ds.m, ds.d⟩) ≤ date.toJD ∧
          date.toJD ≤ jd (some ⟨date.y, df.m, df.d⟩)
      · by_cases hpk : dp.y = ds.y <;>
          simp [hyy, hc1, hc2, hpk, Option.orElse, qdYear, e5, e6, e7]
      · simp [hyy, hc1, hc2, Option.orElse]


theorem c3_generic_resolution_witness :
    hasGenericShower c3Template ⟨2026, 1, 2⟩ = genericResolveSpec c3Template ⟨2026, 1, 2⟩ :=
  c3_generic_resolution c3Template ⟨2026, 1, 2⟩ ⟨1000, 12, 20⟩ ⟨1001, 1, 5⟩ ⟨1000, 12, 25⟩
    rfl rfl rfl (by decide) (by decide) (by decide) (by decide) (by decide) (by decide)
    (by decide) (by decide) (by decide)

/-- C3 counterexample: at the query date Jan 2 of year −1 (1 BC, a
date Stellarium can reach), the resolver's first alignment projects
the finish onto the nonexistent year 0, nulling it; the second
alignment then reads month 0 / day 0 from the nulled date and fails,
so the code reports no generic match — even though the
(currentYear−1, currentYear) = (−2, −1) alignment's inclusive range
does contain the date and the claimed algorithm (as
`genericResolveSpec` words it) resolves it. -/
theorem c3_counterexample :
    hasGenericShower c3Template ⟨-1, 1, 2⟩ = none ∧
    (genericResolveSpec c3Template ⟨-1, 1, 2⟩).isSome = true ∧
    (jd (setDateQ (-2) 12 20) ≤ (⟨-1, 1, 2⟩ : Date).toJD ∧
      (⟨-1, 1, 2⟩ : Date).toJD ≤ jd (setDateQ (-1) 1 5)) := by decide

/-! ## C4: the Gaussian rate model -/

/-- C4: for a resolved activity window (so the current time is at or
after the window start) with a well-formed variable range, the
computed rate is `round(floor + amplitude * exp(-(t - peak)^2 / sd^2))`
where the amplitude is `zhr` (or `variableRange[1]` when `zhr` is the
variable sentinel −1), the floor is 0 (or `variableRange[0]` when
variable), and `sd` is `(peak - start)/2` on the rising side
(`t < peak`) and `(finish - peak)/2` on the falling side, all times
being Julian-day counts. -/
theorem c4_rate_model (act : Activity) (t : ℚ)
    (hvar : act.zhr = -1 → act.variableRange.length = 2)
    (hstart : ((jd act.start : ℚ)) ≤ t) :
    calculateZHR act t =
      some (qRoundR (
        (if act.zhr = -1 then (act.variableRange.getD 0 0 : ℝ) else 0) +
        (if act.zhr = -1 then (act.variableRange.getD 1 0 : ℝ) else (act.zhr : ℝ)) *
        Real.exp (-((t : ℝ) - (jd act.peak : ℝ)) ^ 2 /
          (if (t : ℝ) < (jd act.peak : ℝ)
            then (((jd act.peak : ℝ) - (jd act.start : ℝ)) / 2)
            else (((jd act.finish : ℝ) - (jd act.peak : ℝ)) / 2)) ^ 2))) := by
  by_cases hz : act.zhr = -1
  · obtain ⟨v0, v1, hv⟩ := List.length_eq_two.mp (hvar hz)
    simp only [calculateZHR, hz, hv, if_true, List.getElem?_cons_succ, List.getElem?_cons_zero,
      List.getD, Option.getD_some, if_pos rfl]
    by_cases hlt : t < ((jd act.peak : Int) : ℚ)
    · have hltR : (t : ℝ) < ((jd act.peak : Int) : ℝ) := by exact_mod_cast hlt
      rw [if_pos ⟨hstart, hlt⟩, if_pos hltR]
      simp only [List.getD, List.get?, Option.getD_some]
      push_cast
      ring_nf
    · have hltR : ¬ ((t : ℝ) < ((jd act.peak : Int) : ℝ)) := fun h => hlt (by exact_mod_cast h)
      rw [if_neg (fun h => hlt h.2), if_neg hltR]
      simp only [List.getD, List.get?, Option.getD_some]
      push_cast
      ring_nf
  · simp only [calculateZHR, hz, if_neg hz, if_false]
    by_cases hlt : t < ((jd act.peak : Int) : ℚ)
    · have hltR : (t : ℝ) < ((jd act.peak : Int) : ℝ) := by exact_mod_cast hlt
      rw [if_pos ⟨hstart, hlt⟩, if_pos hltR]
      push_cast
      ring_nf
    · have hltR : ¬ ((t : ℝ) < ((jd act.peak : Int) : ℝ)) := fun h => hlt (by exact_mod_cast h)
      rw [if_neg (fun h => hlt h.2), if_neg hltR]
      push_cast
      ring_nf


theorem c4_rate_model_witness :
    calculateZHR c4Act 2451554 =
      some (qRoundR (
        (if c4Act.zhr = -1 then (c4Act.variableRange.getD 0 0 : ℝ) else 0) +
        (if c4Act.zhr = -1 then (c4Act.variableRange.getD 1 0 : ℝ) else (c4Act.zhr : ℝ)) *
        Real.exp (-(((2451554 : ℚ) : ℝ) - (jd c4Act.peak : ℝ)) ^ 2 /
          (if ((2451554 : ℚ) : ℝ) < (jd c4Act.peak : ℝ)
            then (((jd c4Act.peak : ℝ) - (jd c4Act.start : ℝ)) / 2)
            else (((jd c4Act.finish : ℝ) - (jd c4Act.peak : ℝ)) / 2)) ^ 2))) :=
  c4_rate_model c4Act 2451554 (by decide)
    (by
      have h : jd c4Act.start = 2451545 := by decide
      rw [h]; norm_num)


lemma parseVariable_length {v : List (Option Int)} {l : List Int}
    (h : parseVariable v = some l) : l.length = 2 := by
  unfold parseVariable at h
  split at h
  · cases Option.some.inj h; rfl
  · cases h

lemma parseActivity_actInv {ai : ActivityInput} {a : Activity}
    (h : parseActivity ai = some a) : ActInv a := by
  simp only [parseActivity] at h
  by_cases hz : ai.zhr = -1
  · rw [if_pos hz] at h
    cases hv : parseVariable ai.var with
    | none => rw [hv] at h; cases h
    | some vr =>
      rw [hv] at h
      dsimp only at h
      cases Option.some.inj h
      intro _
      exact parseVariable_length hv
  · rw [if_neg hz] at h
    dsimp only at h
    cases Option.some.inj h
    intro hz'
    exact absurd hz' hz

lemma buildActivities_mem {l : List ActivityInput} {a : Activity}
    (h : a ∈ (buildActivities l).1) : ∃ ai, parseActivity ai = some a := by
  induction l with
  | nil => simp [buildActivities] at h
  | cons x xs ih =>
    rw [buildActivities] at h
    cases hx : parseActivity x with
    | none => rw [hx] at h; simp at h
    | some b =>
      rw [hx] at h
      dsimp only at h
      rcases List.mem_cons.mp h with rfl | h'
      · exact ⟨x, hx⟩
      · exact ih h'

lemma fillFromGeneric_actInv {g a : Activity} (hg : ActInv g) (ha : ActInv a) :
    ActInv (fillFromGeneric g a) := by
  by_cases hz : a.zhr = 0 <;> simp only [fillFromGeneric, hz, if_true, if_false] <;>
    intro h <;> first | exact hg h | exact ha h

lemma fillAll_mem {g : Activity} {l : List Activity} {a : Activity}
    (hg : ActInv g) (hl : ∀ x ∈ l, ActInv x) (h : a ∈ (fillAll g l).1) : ActInv a := by
  induction l with
  | nil => simp [fillAll] at h
  | cons x xs ih =>
    rw [fillAll] at h
    split at h
    · dsimp only at h
      rcases List.mem_cons.mp h with rfl | h'
      · exact fillFromGeneric_actInv hg (hl x (List.mem_cons_self x xs))
      · exact ih (fun b hb => hl b (List.mem_cons_of_mem x hb)) h'
    · dsimp only at h
      rcases List.mem_cons.mp h with rfl | h'
      · exact fillFromGeneric_actInv hg (hl x (List.mem_cons_self x xs))
      · exact hl a (List.mem_cons_of_mem x h')

lemma emptyActivity_actInv : ActInv emptyActivity := by
  intro h
  cases h

lemma constructShower_WF {inp : ShowerInput} {sh : Shower}
    (h : constructShower inp = some sh) : ShowerWF sh := by
  by_cases hm : inp.hasShowerID = true ∧ inp.hasActivity = true ∧
      inp.hasRadiantAlpha = true ∧ inp.hasRadiantDelta = true
  · simp only [constructShower] at h
    rw [if_pos hm] at h
    rcases hba : buildActivities inp.activity with ⟨acts, ok⟩
    rw [hba] at h
    cases ok with
    | false => simp only [Bool.false_eq_true, if_false] at h
               cases Option.some.inj h
               intro hst; exact absurd rfl hst
    | true =>
      simp only [if_true] at h
      cases acts with
      | nil => cases h
      | cons g rest =>
        dsimp only at h
        rcases hfa : fillAll g rest with ⟨filled, ok2⟩
        rw [hfa] at h
        have hmemAll : ∀ x ∈ g :: rest, ActInv x := by
          intro x hx
          obtain ⟨ai, hai⟩ := buildActivities_mem (by rw [hba]; exact hx)
          exact parseActivity_actInv hai
        have hg : ActInv g := hmemAll g (List.mem_cons_self g rest)
        cases ok2 with
        | false =>
          simp only [Bool.false_eq_true, if_false] at h
          cases Option.some.inj h
          intro hst; exact absurd rfl hst
        | true =>
          simp only [if_true] at h
          cases Option.some.inj h
          intro hne
          refine ⟨?_, ?_, ?_⟩
          · show g :: filled ≠ []
            simp
          · show ∀ a ∈ g :: filled, ActInv a
            intro a ha
            rcases List.mem_cons.mp ha with rfl | ha'
            · exact hg
            · refine fillAll_mem hg ?_ (by rw [hfa]; exact ha')
              intro x hx
              exact hmemAll x (List.mem_cons_of_mem g hx)
          · show ActInv emptyActivity
            exact emptyActivity_actInv
  · simp only [constructShower] at h
    rw [if_neg hm] at h
    cases Option.some.inj h
    intro hst; exact absurd rfl hst

/-! ## Totality and shape of the per-tick update -/

lemma confirmedLoop_mem {date : Date} {l : List Activity} {a : Activity}
    (h : confirmedLoop date l = some a) : a ∈ l := by
  induction l with
  | nil => cases h
  | cons x xs ih =>
    rw [confirmedLoop] at h
    split at h
    · cases Option.some.inj h
      exact List.mem_cons_self _ _
    · exact List.mem_cons_of_mem _ (ih h)

lemma hasGenericShower_fields {g : Activity} {date : Date} {a : Activity}
    (h : hasGenericShower g date = some a) :
    a.zhr = g.zhr ∧ a.variableRange = g.variableRange := by
  simp only [hasGenericShower] at h
  split at h
  · split at h
    · cases Option.some.inj h; exact ⟨rfl, rfl⟩
    · split at h
      · cases Option.some.inj h; exact ⟨rfl, rfl⟩
      · cases h
  · split at h
    · cases Option.some.inj h; exact ⟨rfl, rfl⟩
    · cases h

lemma resolveActivity_isSome (acts : List Activity) (date : Date) (hne : acts ≠ []) :
    (resolveActivity acts date).isSome = true := by
  unfold resolveActivity
  cases hc : hasConfirmedShower acts date with
  | some a => rfl
  | none =>
    cases acts with
    | nil => exact absurd rfl hne
    | cons g rest =>
      dsimp only
      cases hg : hasGenericShower g date with
      | some a2 => rfl
      | none => rfl

lemma resolveActivity_props {acts : List Activity} {date : Date} {act : Activity} {st : Status}
    (hinv : ∀ a ∈ acts, ActInv a)
    (h : resolveActivity acts date = some (act, st)) :
    ActInv act ∧ st ≠ .INVALID ∧ st ≠ .UNDEFINED := by
  unfold resolveActivity at h
  cases hc : hasConfirmedShower acts date with
  | some a =>
    rw [hc] at h
    dsimp only at h
    simp only [Option.some.injEq, Prod.mk.injEq] at h
    obtain ⟨rfl, rfl⟩ := h
    refine ⟨hinv a (List.drop_subset 1 acts (confirmedLoop_mem hc)), by decide, by decide⟩
  | none =>
    rw [hc] at h
    cases acts with
    | nil => cases h
    | cons g rest =>
      dsimp only at h
      cases hg : hasGenericShower g date with
      | some a2 =>
        rw [hg] at h
        dsimp only at h
        simp only [Option.some.injEq, Prod.mk.injEq] at h
        obtain ⟨rfl, rfl⟩ := h
        obtain ⟨hz, hv⟩ := hasGenericShower_fields hg
        refine ⟨?_, by decide, by decide⟩
        intro hzv
        rw [hv]
        exact hinv g (List.mem_cons_self g rest) (by rw [← hz]; exact hzv)
      | none =>
        rw [hg] at h
        dsimp only at h
        simp only [Option.some.injEq, Prod.mk.injEq] at h
        obtain ⟨rfl, rfl⟩ := h
        exact ⟨emptyActivity_actInv, by decide, by decide⟩

lemma calculateZHR_isSome (act : Activity) (t : ℚ) (hinv : ActInv act) :
    (calculateZHR act t).isSome = true := by
  by_cases hz : act.zhr = -1
  · obtain ⟨v0, v1, hv⟩ := List.length_eq_two.mp (hinv hz)
    simp [calculateZHR, hz, hv]
  · simp [calculateZHR, hz]

/-- Unfolding of `updateShower` once the resolution is known. -/
lemma updateShower_resolve (s : Shower) (env : TickEnv) {act : Activity} {st : Status}
    (hst : s.status ≠ .INVALID)
    (hres : resolveActivity s.activities (getDateFromJulianDay (truncInt env.currentJD)) =
      some (act, st)) :
    updateShower s env =
      if enabledB st env.activeRadiantOnly then
        (let s3 := afterAging (afterRadiant (afterResolve s act st) env.currentJD)
                     env.meteorSurvives
         if env.realTimeSpeed then
           (calculateZHR act env.currentJD).map fun z =>
             let proto : MeteorState := ⟨s3.speed, s3.radiantAlpha, s3.radiantDelta, s3.pidx, s3.colors⟩
             { s3 with activeMeteors := s3.activeMeteors ++
                         spawnMeteors z env.deltaTime env.rands env.spawnAlive proto }
         else some s3)
      else some (afterResolve s act st) := by
  simp only [updateShower]
  rw [if_neg hst, hres]

lemma spawnMeteors_zero_dt (z : Int) (rands : Nat → ℚ) (alive : MeteorState → Bool)
    (proto : MeteorState) (hr : ∀ i, 0 ≤ rands i) :
    spawnMeteors z 0 rands alive proto = [] := by
  simp only [spawnMeteors]
  split
  · rfl
  · have h0 : (z : ℚ) * 0 / 3600 = 0 := by ring
    rw [h0, zero_div]
    exact List.filterMap_eq_nil_iff.mpr fun i _ => if_neg (not_lt.mpr (hr i))

lemma afterRadiant_proj (s1 : Shower) (t : ℚ) :
    (afterRadiant s1 t).status = s1.status ∧
    (afterRadiant s1 t).activities = s1.activities ∧
    (afterRadiant s1 t).currentActivity = s1.currentActivity ∧
    (afterRadiant s1 t).rAlphaPeak = s1.rAlphaPeak ∧
    (afterRadiant s1 t).rDeltaPeak = s1.rDeltaPeak ∧
    (afterRadiant s1 t).driftAlpha = s1.driftAlpha ∧
    (afterRadiant s1 t).driftDelta = s1.driftDelta ∧
    (afterRadiant s1 t).activeMeteors = s1.activeMeteors ∧
    (afterRadiant s1 t).speed = s1.speed ∧ (afterRadiant s1 t).pidx = s1.pidx ∧
    (afterRadiant s1 t).colors = s1.colors := by
  unfold afterRadiant
  split <;> exact ⟨rfl, rfl, rfl, rfl, rfl, rfl, rfl, rfl, rfl, rfl, rfl⟩

lemma afterRadiant_radiant (s1 : Shower) (t : ℚ) :
    (afterRadiant s1 t).radiantAlpha = (if s1.status = .INACTIVE then s1.rAlphaPeak
       else s1.rAlphaPeak + s1.driftAlpha * (t - (jd s1.currentActivity.peak : ℚ))) ∧
    (afterRadiant s1 t).radiantDelta = (if s1.status = .INACTIVE then s1.rDeltaPeak
       else s1.rDeltaPeak + s1.driftDelta * (t - (jd s1.currentActivity.peak : ℚ))) := by
  unfold afterRadiant
  by_cases hI : s1.status = .INACTIVE
  · rw [if_neg (fun h => h hI), if_pos hI, if_pos hI]
    exact ⟨rfl, rfl⟩
  · rw [if_pos hI, if_neg hI, if_neg hI]
    exact ⟨rfl, rfl⟩

/-- One tick of a non-INVALID shower with a resolvable activity list:
the update succeeds, only `status`, `currentActivity`, the radiant and
the meteor list change, the radiant is recomputed from the peak
radiant, and with zero elapsed time and nonnegative draws no meteor is
added. -/
lemma updateShower_char (s : Shower) (env : TickEnv) {act : Activity} {st : Status}
    (hst : s.status ≠ .INVALID)
    (hres : resolveActivity s.activities (getDateFromJulianDay (truncInt env.currentJD)) =
      some (act, st))
    (hactinv : ActInv act) :
    ∃ sh', updateShower s env = some sh' ∧
      sh'.activities = s.activities ∧ sh'.status = st ∧ sh'.currentActivity = act ∧
      sh'.rAlphaPeak = s.rAlphaPeak ∧ sh'.rDeltaPeak = s.rDeltaPeak ∧
      sh'.driftAlpha = s.driftAlpha ∧ sh'.driftDelta = s.driftDelta ∧
      sh'.radiantAlpha = (if enabledB st env.activeRadiantOnly then
          (if st = .INACTIVE then s.rAlphaPeak
           else s.rAlphaPeak + s.driftAlpha * (env.currentJD - (jd act.peak : ℚ)))
        else s.radiantAlpha) ∧
      sh'.radiantDelta = (if enabledB st env.activeRadiantOnly then
          (if st = .INACTIVE then s.rDeltaPeak
           else s.rDeltaPeak + s.driftDelta * (env.currentJD - (jd act.peak : ℚ)))
        else s.radiantDelta) ∧
      ((env.deltaTime = 0 ∧ ∀ i, 0 ≤ env.rands i) →
        sh'.activeMeteors.Sublist s.activeMeteors) := by
  rw [updateShower_resolve s env hst hres]
  by_cases he : enabledB st env.activeRadiantOnly = true
  · rw [if_pos he]
    have hrad := afterRadiant_radiant (afterResolve s act st) env.currentJD
    have hprj := afterRadiant_proj (afterResolve s act st) env.currentJD
    by_cases hrt : env.realTimeSpeed = true
    · rw [if_pos hrt]
      obtain ⟨z, hz⟩ := Option.isSome_iff_exists.mp
        (calculateZHR_isSome act env.currentJD hactinv)
      rw [hz]
      simp only [Option.map_some']
      refine ⟨_, rfl, hprj.2.1, hprj.1, hprj.2.2.1, hprj.2.2.2.1, hprj.2.2.2.2.1,
        hprj.2.2.2.2.2.1, hprj.2.2.2.2.2.2.1, ?_, ?_, ?_⟩
      · rw [if_pos he]
        exact hrad.1
      · rw [if_pos he]
        exact hrad.2
      · rintro ⟨hdt, hr⟩
        show ((afterRadiant (afterResolve s act st) env.currentJD).activeMeteors.filter
            env.meteorSurvives ++ _).Sublist s.activeMeteors
        rw [hdt, spawnMeteors_zero_dt _ _ _ _ hr, List.append_nil,
          hprj.2.2.2.2.2.2.2.1]
        exact List.filter_sublist _
    · rw [if_neg hrt]
      refine ⟨_, rfl, hprj.2.1, hprj.1, hprj.2.2.1, hprj.2.2.2.1, hprj.2.2.2.2.1,
        hprj.2.2.2.2.2.1, hprj.2.2.2.2.2.2.1, ?_, ?_, ?_⟩
      · rw [if_pos he]
        exact hrad.1
      · rw [if_pos he]
        exact hrad.2
      · intro _
        show ((afterRadiant (afterResolve s act st) env.currentJD).activeMeteors.filter
            env.meteorSurvives).Sublist s.activeMeteors
        rw [hprj.2.2.2.2.2.2.2.1]
        exact List.filter_sublist _
  · rw [if_neg he]
    refine ⟨_, rfl, rfl, rfl, rfl, rfl, rfl, rfl, rfl, ?_, ?_, ?_⟩
    · rw [if_neg he]
      rfl
    · rw [if_neg he]
      rfl
    · intro _
      exact List.Sublist.refl _

/-! ## C7: every tick of a well-formed shower completes -/

/-- C7: construction establishes the state invariant, and for every
non-INVALID well-formed shower and every tick input the update runs to
completion (no out-of-bounds access, modelled by `none`) and preserves
the invariant — including ticks on which no window matches (INACTIVE)
while the shower remains enabled.  (On an INVALID shower the tick is a
no-op, so it completes as well.) -/
theorem c7_tick_safety :
    (∀ inp sh, constructShower inp = some sh → ShowerWF sh) ∧
    (∀ sh env, ShowerWF sh →
      (updateShower sh env).isSome = true ∧
      ∀ sh', updateShower sh env = some sh' → ShowerWF sh') := by
  refine ⟨fun inp sh h => constructShower_WF h, ?_⟩
  intro sh env hwf
  by_cases hst : sh.status = .INVALID
  · constructor
    · simp [updateShower, hst]
    · intro sh' h
      simp only [updateShower, hst, if_pos, Option.some.injEq] at h
      rw [← h]
      exact hwf
  · obtain ⟨hne, hinv, -⟩ := hwf hst
    obtain ⟨⟨act, st⟩, hres⟩ := Option.isSome_iff_exists.mp
      (resolveActivity_isSome sh.activities (getDateFromJulianDay (truncInt env.currentJD)) hne)
    obtain ⟨hact, hstI, -⟩ := resolveActivity_props hinv hres
    obtain ⟨sh', hupd, hacts, hstat, hcur, -, -, -, -, -, -, -⟩ :=
      updateShower_char sh env hst hres hact
    constructor
    · rw [hupd]; rfl
    · intro sh'' h
      rw [hupd] at h
      cases Option.some.inj h
      refine fun _ => ⟨?_, ?_, ?_⟩
      · rw [hacts]; exact hne
      · intro a ha; rw [hacts] at ha; exact hinv a ha
      · rw [hcur]; exact hact


theorem c7_tick_safety_witness :
    (updateShower c7Shower trivialEnv).isSome = true :=
  (c7_tick_safety.2 c7Shower trivialEnv
    (fun _ => ⟨by decide, by
        intro a ha
        simp only [c7Shower, List.mem_singleton] at ha
        subst ha
        intro hz
        exact absurd hz (by decide), emptyActivity_actInv⟩)).1

/-! ## C8: idempotence at a fixed instant -/

/-- C8: for a non-INVALID well-formed shower, two consecutive updates
at the same unchanged date with zero elapsed time (and nonnegative
random draws, as `qrand()/RAND_MAX` always is) yield the same status
and the same radiant position as the first, with no drift
accumulation; neither call spawns a meteor (the meteor list never
grows). -/
theorem c8_idempotent_tick (sh : Shower) (env1 env2 : TickEnv)
    (hwf : ShowerWF sh) (hst : sh.status ≠ .INVALID)
    (hjd : env2.currentJD = env1.currentJD)
    (haro : env2.activeRadiantOnly = env1.activeRadiantOnly)
    (hdt1 : env1.deltaTime = 0) (hdt2 : env2.deltaTime = 0)
    (hr1 : ∀ i, 0 ≤ env1.rands i) (hr2 : ∀ i, 0 ≤ env2.rands i) :
    ((updateShower sh env1).bind fun s1 => updateShower s1 env2).map
        (fun s2 => (s2.status, s2.radiantAlpha, s2.radiantDelta)) =
      (updateShower sh env1).map (fun s1 => (s1.status, s1.radiantAlpha, s1.radiantDelta)) ∧
    (updateShower sh env1).map
        (fun s1 => decide (s1.activeMeteors.Sublist sh.activeMeteors)) = some true ∧
    ((updateShower sh env1).bind fun s1 =>
        (updateShower s1 env2).map
          (fun s2 => decide (s2.activeMeteors.Sublist s1.activeMeteors))) = some true := by
  obtain ⟨hne, hinv, -⟩ := hwf hst
  obtain ⟨⟨act, st⟩, hres1⟩ := Option.isSome_iff_exists.mp
    (resolveActivity_isSome sh.activities (getDateFromJulianDay (truncInt env1.currentJD)) hne)
  obtain ⟨hact, hstI, -⟩ := resolveActivity_props hinv hres1
  obtain ⟨s1, hupd1, h1acts, h1stat, h1cur, h1rap, h1rdp, h1da, h1dd, h1ra, h1rd, h1sub⟩ :=
    updateShower_char sh env1 hst hres1 hact
  have hres2 : resolveActivity s1.activities
      (getDateFromJulianDay (truncInt env2.currentJD)) = some (act, st) := by
    rw [h1acts, hjd]; exact hres1
  have hst1 : s1.status ≠ .INVALID := by rw [h1stat]; exact hstI
  obtain ⟨s2, hupd2, h2acts, h2stat, h2cur, h2rap, h2rdp, h2da, h2dd, h2ra, h2rd, h2sub⟩ :=
    updateShower_char s1 env2 hst1 hres2 hact
  refine ⟨?_, ?_, ?_⟩
  · rw [hupd1]
    simp only [Option.some_bind, hupd2, Option.map_some', Option.some.injEq,
      Prod.mk.injEq]
    refine ⟨?_, ?_, ?_⟩
    · rw [h2stat, h1stat]
    · rw [h2ra, haro, hjd, h1rap, h1da, h1ra]
      by_cases he : enabledB st env1.activeRadiantOnly = true
      · rw [if_pos he, if_pos he]
      · rw [if_neg he, if_neg he]
    · rw [h2rd, haro, hjd, h1rdp, h1dd, h1rd]
      by_cases he : enabledB st env1.activeRadiantOnly = true
      · rw [if_pos he, if_pos he]
      · rw [if_neg he, if_neg he]
  · rw [hupd1]
    simp only [Option.map_some', Option.some.injEq, decide_eq_true_eq]
    exact h1sub ⟨hdt1, hr1⟩
  · rw [hupd1]
    simp only [Option.some_bind, hupd2, Option.map_some', Option.some.injEq,
      decide_eq_true_eq]
    exact h2sub ⟨hdt2, hr2⟩

theorem c8_idempotent_tick_witness :
    ((updateShower c7Shower trivialEnv).bind fun s1 => updateShower s1 trivialEnv).map
        (fun s2 => (s2.status, s2.radiantAlpha, s2.radiantDelta)) =
      (updateShower c7Shower trivialEnv).map
        (fun s1 => (s1.status, s1.radiantAlpha, s1.radiantDelta)) :=
  (c8_idempotent_tick c7Shower trivialEnv trivialEnv
    (fun _ => ⟨by decide, by
        intro a ha
        simp only [c7Shower, List.mem_singleton] at ha
        subst ha
        intro hz
        exact absurd hz (by decide), emptyActivity_actInv⟩)
    (by decide) rfl rfl rfl rfl (fun i => le_refl 0) (fun i => le_refl 0)).1

/-! ## C5: the Bernoulli-thinning spawn scheme -/

/-- C5: on a tick of an enabled shower with the clock running forward,
if the rounded hourly rate is below 1 nothing spawns; otherwise, with
`mpf = rate * dt / 3600` and `maxMpf = max(1, round(mpf))`, exactly
`maxMpf` Bernoulli draws are made, the i-th spawning one meteor iff
its uniform draw is below `mpf / maxMpf` (and the entity passes its
viability check), so at most `maxMpf` meteors are added, and
`maxMpf * (mpf / maxMpf) = mpf` (the expected spawn count over uniform
draws is `mpf`); and inside `update` the spawned meteors are exactly
appended to the aged meteor list. -/
theorem c5_spawn_model (z : Int) (dt : ℚ) (rands : Nat → ℚ) (alive : MeteorState → Bool)
    (proto : MeteorState) :
    (z < 1 → spawnMeteors z dt rands alive proto = []) ∧
    (1 ≤ z →
      spawnMeteors z dt rands alive proto =
        (List.range (max 1 (qRoundQ ((z : ℚ) * dt / 3600))).toNat).filterMap (fun i =>
          if rands i < ((z : ℚ) * dt / 3600) / ((max 1 (qRoundQ ((z : ℚ) * dt / 3600)) : Int) : ℚ)
          then (if alive proto then some proto else none) else none) ∧
      (spawnMeteors z dt rands alive proto).length ≤
        (max 1 (qRoundQ ((z : ℚ) * dt / 3600))).toNat ∧
      ((max 1 (qRoundQ ((z : ℚ) * dt / 3600)) : Int) : ℚ) *
          (((z : ℚ) * dt / 3600) / ((max 1 (qRoundQ ((z : ℚ) * dt / 3600)) : Int) : ℚ)) =
        (z : ℚ) * dt / 3600) ∧
    (∀ (s : Shower) (env : TickEnv) (act : Activity) (st : Status),
      s.status ≠ .INVALID →
      resolveActivity s.activities (getDateFromJulianDay (truncInt env.currentJD)) =
        some (act, st) →
      enabledB st env.activeRadiantOnly = true →
      env.realTimeSpeed = true →
      calculateZHR act env.currentJD = some z →
      (updateShower s env).map Shower.activeMeteors =
        some ((afterAging (afterRadiant (afterResolve s act st) env.currentJD)
                 env.meteorSurvives).activeMeteors ++
              spawnMeteors z env.deltaTime env.rands env.spawnAlive
                ⟨(afterAging (afterRadiant (afterResolve s act st) env.currentJD)
                    env.meteorSurvives).speed,
                 (afterAging (afterRadiant (afterResolve s act st) env.currentJD)
                    env.meteorSurvives).radiantAlpha,
                 (afterAging (afterRadiant (afterResolve s act st) env.currentJD)
                    env.meteorSurvives).radiantDelta,
                 (afterAging (afterRadiant (afterResolve s act st) env.currentJD)
                    env.meteorSurvives).pidx,
                 (afterAging (afterRadiant (afterResolve s act st) env.currentJD)
                    env.meteorSurvives).colors⟩)) := by
  have hmax : (if qRoundQ ((z : ℚ) * dt / 3600) < 1 then 1 else qRoundQ ((z : ℚ) * dt / 3600)) =
      max 1 (qRoundQ ((z : ℚ) * dt / 3600)) := by omega
  refine ⟨?_, ?_, ?_⟩
  · intro h
    simp only [spawnMeteors, if_pos h]
  · intro h
    have hchar : spawnMeteors z dt rands alive proto =
        (List.range (max 1 (qRoundQ ((z : ℚ) * dt / 3600))).toNat).filterMap (fun i =>
          if rands i < ((z : ℚ) * dt / 3600) / ((max 1 (qRoundQ ((z : ℚ) * dt / 3600)) : Int) : ℚ)
          then (if alive proto then some proto else none) else none) := by
      simp only [spawnMeteors, if_neg (not_lt.mpr h)]
      rw [hmax]
    refine ⟨hchar, ?_, ?_⟩
    · rw [hchar]
      exact le_trans (List.length_filterMap_le _ _) (le_of_eq (List.length_range _))
    · have h1 : (1 : ℚ) ≤ ((max 1 (qRoundQ ((z : ℚ) * dt / 3600)) : Int) : ℚ) := by
        exact_mod_cast le_max_left 1 (qRoundQ ((z : ℚ) * dt / 3600))
      rw [mul_comm, div_mul_cancel₀]
      intro h0
      rw [h0] at h1
      norm_num at h1
  · intro s env act st hst hres he hrt hz
    rw [updateShower_resolve s env hst hres, if_pos he, if_pos hrt, hz]
    simp only [Option.map_some']


theorem c5_spawn_model_witness :
    spawnMeteors 10 360 (fun _ => 1/2) (fun _ => true) protoW =
      (List.range (max 1 (qRoundQ ((10 : ℚ) * 360 / 3600))).toNat).filterMap (fun i =>
        if (fun _ : Nat => (1/2 : ℚ)) i <
            ((10 : ℚ) * 360 / 3600) / ((max 1 (qRoundQ ((10 : ℚ) * 360 / 3600)) : Int) : ℚ)
        then (if (fun _ : MeteorState => true) protoW then some protoW else none) else none) :=
  ((c5_spawn_model 10 360 (fun _ => 1/2) (fun _ => true) protoW).2.1 (by norm_num)).1
